import Mathlib

/-!
Verification of the salon booking engine (`salon_bot_with_booking.py`).

The embedding models the appointment repository, the business-calendar
validator, phone normalization, the tool dispatch table and the bounded
tool-call loop controller.  The PostgreSQL table is modelled as a list of
rows; `DATE`/`TIME` values are structures; machine integers are `Nat`.
Python string helpers (`str.split`, `str.strip`, `str.lower`, digit
conversion) are implemented structurally over `List Char` so that every
definition evaluates by kernel reduction.
-/

namespace SalonBot

/-! ### String utilities (structural re-implementations of the Python helpers) -/

/-- Splits a character list on a separator, like Python `str.split(sep)`:
always returns at least one (possibly empty) group. -/
def splitOnChar (sep : Char) : List Char → List (List Char)
  | [] => [[]]
  | c :: rest =>
    match splitOnChar sep rest with
    | [] => if c = sep then [[], []] else [[c]]
    | g :: gs => if c = sep then [] :: g :: gs else (c :: g) :: gs

/-- Converts a non-empty all-digit character group to a number, as the
`%Y` / `%m` / `%d` / `%H` / `%M` directives of `datetime.strptime` do. -/
def digitGroupToNat? (cs : List Char) : Option Nat :=
  if cs ≠ [] ∧ cs.all Char.isDigit then
    some (cs.foldl (fun n c => n * 10 + (c.toNat - 48)) 0)
  else none

/-- Decimal digits of a number, most significant first (fuel-based so the
kernel can reduce it). -/
def natToCharsAux : Nat → Nat → List Char → List Char
  | 0, _, acc => acc
  | fuel + 1, n, acc =>
    let d := Char.ofNat (48 + n % 10)
    if n < 10 then d :: acc else natToCharsAux fuel (n / 10) (d :: acc)

def natToChars (n : Nat) : List Char := natToCharsAux (n + 1) n []

/-- Zero-pads to two digits, as `%02d` / `str(datetime.time)` rendering does. -/
def pad2 (n : Nat) : List Char := if n < 10 then '0' :: natToChars n else natToChars n

/-- Zero-pads to four digits, as `str(datetime.date)` renders the year. -/
def pad4 (n : Nat) : List Char :=
  if n < 10 then '0' :: '0' :: '0' :: natToChars n
  else if n < 100 then '0' :: '0' :: natToChars n
  else if n < 1000 then '0' :: natToChars n
  else natToChars n

/-- Python `str.strip()`: removes leading and trailing whitespace. -/
def pyStrip (s : String) : String :=
  ⟨((s.data.dropWhile Char.isWhitespace).reverse.dropWhile Char.isWhitespace).reverse⟩

/-- Python `str.lower()` (the service codes are ASCII). -/
def pyLower (s : String) : String := ⟨s.data.map Char.toLower⟩

/-! ### Dates and times -/

/-- A calendar date as produced by `datetime.strptime(s, "%Y-%m-%d")`. -/
structure Date where
  year : Nat
  month : Nat
  day : Nat
deriving DecidableEq, Repr

/-- A clock time (minute granularity, as in the `HH:MM` tool inputs). -/
structure Time where
  hour : Nat
  minute : Nat
deriving DecidableEq, Repr

structure DateTime where
  date : Date
  time : Time
deriving DecidableEq, Repr

/-- Gregorian leap-year rule (as used by `datetime`). -/
def isLeapYear (y : Nat) : Bool :=
  y % 4 == 0 && (y % 100 != 0 || y % 400 == 0)

def daysInMonth (y m : Nat) : Nat :=
  if m = 2 then (if isLeapYear y then 29 else 28)
  else if m = 4 ∨ m = 6 ∨ m = 9 ∨ m = 11 then 30
  else 31

/-- Lexicographic key of a date. -/
def Date.key (d : Date) : Nat ×ₗ (Nat ×ₗ Nat) := toLex (d.year, toLex (d.month, d.day))

/-- Lexicographic key of a time. -/
def Time.key (t : Time) : Nat ×ₗ Nat := toLex (t.hour, t.minute)

/-- Lexicographic key of a datetime, giving the `datetime` comparison order. -/
def DateTime.key (x : DateTime) : (Nat ×ₗ (Nat ×ₗ Nat)) ×ₗ (Nat ×ₗ Nat) :=
  toLex (x.date.key, x.time.key)

/-- Day count in the proleptic Gregorian calendar, measured from
0000-03-01 (a Wednesday); years here are at least 1, as `datetime` requires. -/
def Date.rataDie (dt : Date) : Nat :=
  let y := if dt.month ≤ 2 then dt.year - 1 else dt.year
  let era := y / 400
  let yoe := y % 400
  let mp := (dt.month + 9) % 12
  let doy := (153 * mp + 2) / 5 + (dt.day - 1)
  let doe := yoe * 365 + yoe / 4 - yoe / 100 + doy
  era * 146097 + doe

/-- Python `datetime.weekday()`: Monday = 0 … Sunday = 6. -/
def Date.weekday (dt : Date) : Nat := (dt.rataDie + 2) % 7

/-- Parse result of `datetime.strptime(s, "%Y-%m-%d")`: three dash-separated
digit groups (the `%Y` directive matches exactly 4 digits, `%m` and `%d` one
or two digits), with `datetime`-level range checking: year at least 1
(`MINYEAR`), month 1-12, day within the month. -/
def parseDate (s : String) : Option Date :=
  match splitOnChar '-' s.data with
  | [ys, ms, ds] =>
    match digitGroupToNat? ys, digitGroupToNat? ms, digitGroupToNat? ds with
    | some y, some m, some d =>
      if ys.length = 4 ∧ 1 ≤ y ∧ ms.length ≤ 2 ∧ 1 ≤ m ∧ m ≤ 12 ∧
         ds.length ≤ 2 ∧ 1 ≤ d ∧ d ≤ daysInMonth y m then
        some ⟨y, m, d⟩
      else none
    | _, _, _ => none
  | _ => none

/-- Parse result of `datetime.strptime(s, "%H:%M")`. -/
def parseTime (s : String) : Option Time :=
  match splitOnChar ':' s.data with
  | [hs, ms] =>
    match digitGroupToNat? hs, digitGroupToNat? ms with
    | some h, some m =>
      if hs.length ≤ 2 ∧ h ≤ 23 ∧ ms.length ≤ 2 ∧ m ≤ 59 then some ⟨h, m⟩ else none
    | _, _ => none
  | _ => none

/-- Parse result of `datetime.strptime(f"{date} {time}", "%Y-%m-%d %H:%M")`:
the combined parse succeeds exactly when both components parse (digit groups
cannot absorb the separating space). -/
def parseDateTime (d t : String) : Option DateTime :=
  match parseDate d, parseTime t with
  | some dd, some tt => some ⟨dd, tt⟩
  | _, _ => none

/-- Canonical rendering of a date, as `str()` of a Python `datetime.date`. -/
def Date.render (d : Date) : String :=
  ⟨pad4 d.year ++ '-' :: pad2 d.month ++ '-' :: pad2 d.day⟩

/-- The `HH:MM` prefix of a rendered `datetime.time`, i.e. `str(t)[:5]`. -/
def Time.render (t : Time) : String := ⟨pad2 t.hour ++ ':' :: pad2 t.minute⟩

/-! ### Service catalog and phone normalization -/

structure Service where
  name_it : String
  name_en : String
  price : Nat
  duration : Nat
deriving DecidableEq, Repr

/-- The `SALON_SERVICES` dictionary. -/
def SALON_SERVICES : List (String × Service) :=
  [("taglio_donna", ⟨"Taglio Donna", "Women\x27s Haircut", 60, 45⟩),
   ("taglio_uomo", ⟨"Taglio Uomo", "Men\x27s Haircut", 40, 45⟩),
   ("piega", ⟨"Piega", "Styling/Blow-dry", 30, 30⟩),
   ("colore_base", ⟨"Colore Base", "Basic Color", 70, 90⟩),
   ("balayage", ⟨"Balayage/Schiariture", "Balayage/Highlights", 130, 150⟩),
   ("trattamento_ristrutturante", ⟨"Trattamento Ristrutturante", "Restructuring Treatment", 45, 45⟩),
   ("trattamento_cute", ⟨"Trattamento Cute", "Scalp Treatment", 40, 30⟩)]

/-- Python `SALON_SERVICES.get(key)`. -/
def getService (key : String) : Option Service :=
  (SALON_SERVICES.find? (fun p => p.1 == key)).map Prod.snd

/-- The `normalize_phone` utility: keep only digit characters and strip
leading zeros, falling back to the digits when stripping removes everything. -/
def normalize_phone (phone : String) : String :=
  if phone = "" then phone
  else if (phone.data.filter Char.isDigit).dropWhile (fun c => c == '0') = [] then
    ⟨phone.data.filter Char.isDigit⟩
  else ⟨(phone.data.filter Char.isDigit).dropWhile (fun c => c == '0')⟩

/-! ### Business-day validation -/

/-- Result of `validate_business_day_and_time`: either valid, or invalid with
an error code and bilingual messages (`error_it` is empty when the source
dict omits it). -/
inductive VResult where
  | valid
  | invalid (error_code error msg_it : String)
deriving DecidableEq, Repr

/-- The holiday and closed-day checks of `validate_business_day_and_time`,
applied to an already-parsed date (holidays Dec 25 / Jan 1 first, then the
Monday / Sunday closures; the open-hour window block is commented out in the
source, so no time value is ever consulted). -/
def validateDate (d : Date) : VResult :=
  if d.month = 12 ∧ d.day = 25 then
    .invalid "CLOSED_HOLIDAY_CHRISTMAS" "We are closed on Christmas Day (December 25)"
      "Siamo chiusi il giorno di Natale (25 dicembre)"
  else if d.month = 1 ∧ d.day = 1 then
    .invalid "CLOSED_HOLIDAY_NEWYEAR" "We are closed on New Year\x27s Day (January 1)"
      "Siamo chiusi il giorno di Capodanno (1 gennaio)"
  else if d.weekday = 0 then
    .invalid "CLOSED_MONDAY" "We are closed on Mondays. We\x27re open Tuesday-Saturday."
      "Siamo chiusi il lunedì. Siamo aperti da martedì a sabato."
  else if d.weekday = 6 then
    .invalid "CLOSED_SUNDAY" "We are closed on Sundays. We\x27re open Tuesday-Saturday."
      "Siamo chiusi la domenica. Siamo aperti da martedì a sabato."
  else .valid

/-- Embeds `validate_business_day_and_time(date_str, time_str)`: date format check
first, then the calendar rules; the time argument is accepted but unused
because the hour-window rules are disabled in the source. -/
def validate_business_day_and_time (date_str : String) (time_str : Option String) : VResult :=
  match parseDate date_str with
  | none => .invalid "INVALID_DATE_FORMAT" "Invalid date format" ""
  | some d =>
    let _ := time_str
    validateDate d

/-! ### Data model: appointment rows and the database -/

inductive Status where
  | confirmed
  | cancelled
deriving DecidableEq, Repr

/-- A row of the `salon_appointments` table (the `created_at` audit column is
set by the database and never read by any operation, so it is omitted). -/
structure Appointment where
  id : Nat
  customer_phone : String
  customer_name : String
  service_type : String
  appointment_date : Date
  appointment_time : Time
  duration_minutes : Nat
  price : Nat
  status : Status
  google_event_id : Option String
deriving DecidableEq, Repr

/-- The appointment store: the table rows plus the next `SERIAL` id. -/
structure DB where
  appts : List Appointment
  nextId : Nat
deriving DecidableEq, Repr

def DB.empty : DB := ⟨[], 1⟩

/-- The predicate of the availability pre-check query:
`appointment_date = %s AND appointment_time = %s AND status = confirmed`. -/
def isConfirmedAt (d : Date) (t : Time) (a : Appointment) : Bool :=
  a.appointment_date == d && a.appointment_time == t && a.status == Status.confirmed

/-- Embeds `SELECT COUNT(*) … WHERE appointment_date = d AND appointment_time = t
AND status = confirmed`. -/
def confirmedCountAt (l : List Appointment) (d : Date) (t : Time) : Nat :=
  l.countP (isConfirmedAt d t)

/-- Observable side-channel and storage events of one repository operation,
in the order the source issues them. -/
inductive Effect where
  | calendarCreate (eventId : Option String)
  | calendarUpdate (eventId : String)
  | calendarDelete (eventId : String)
  | dbInsert (id : Nat)
  | dbUpdate (id : Nat)
deriving DecidableEq, Repr

def Effect.isCalendarSync : Effect → Bool
  | .calendarCreate _ => true
  | .calendarUpdate _ => true
  | .calendarDelete _ => true
  | _ => false

def Effect.isDbWrite : Effect → Bool
  | .dbInsert _ => true
  | .dbUpdate _ => true
  | _ => false

/-! ### Repository operations

Each operation returns its structured result (the dict the Python function
returns, reduced to its data content), the new store, and the list of
storage / calendar effects it issued, in source order.  The current wall
clock enters as an explicit `now` parameter (second granularity collapses to
minutes, matching the minute-granular appointment datetimes), and the
outcome of a Google-calendar call enters as an explicit parameter, since the
source swallows calendar failures inside the calendar helpers. -/

/-- Structured result of `create_appointment`. -/
inductive CreateResult where
  | customerNameRequired
  | invalidService (provided : String) (valid_services : List String)
  | pastDateNotAllowed
  | invalidDateTimeFormat (provided_date provided_time : String)
  | businessRuleViolation (error_code message message_it date time : String)
  | slotAlreadyBooked (date time : String)
  | created (appointment_id : Nat) (customer_name service service_en date time : String)
      (price : Nat) (calendar_synced : Bool)
deriving DecidableEq, Repr

def CreateResult.isSuccess : CreateResult → Bool
  | .created _ _ _ _ _ _ _ _ => true
  | _ => false

/-- Embeds `create_appointment(customer_phone, customer_name, service_type,
date, time)`.  `syncOut` is the event id returned by `create_calendar_event`
(`none` when calendar sync fails, which that helper reports by returning
`None`). -/
def create_appointment (now : DateTime) (syncOut : Option String) (db : DB)
    (customer_phone customer_name service_type date time : String) :
    CreateResult × DB × List Effect :=
  let normalized_phone := normalize_phone customer_phone
  if pyStrip customer_name = "" then (.customerNameRequired, db, [])
  else
    let name := pyStrip customer_name
    match getService (pyLower service_type) with
    | none => (.invalidService service_type (SALON_SERVICES.map Prod.fst), db, [])
    | some service =>
      match parseDateTime date time with
      | none => (.invalidDateTimeFormat date time, db, [])
      | some adt =>
        if adt.key < now.key then (.pastDateNotAllowed, db, [])
        else
          match validate_business_day_and_time date (some time) with
          | .invalid code msg msgIt => (.businessRuleViolation code msg msgIt date time, db, [])
          | .valid =>
            if 0 < confirmedCountAt db.appts adt.date adt.time then
              (.slotAlreadyBooked date time, db, [])
            else
              let row : Appointment :=
                { id := db.nextId
                  customer_phone := normalized_phone
                  customer_name := name
                  service_type := service_type
                  appointment_date := adt.date
                  appointment_time := adt.time
                  duration_minutes := service.duration
                  price := service.price
                  status := .confirmed
                  google_event_id := syncOut }
              (.created db.nextId name service.name_it service.name_en date time
                 service.price syncOut.isSome,
               { appts := db.appts ++ [row], nextId := db.nextId + 1 },
               [.calendarCreate syncOut, .dbInsert db.nextId])

/-- The ownership-scoped lookup used by `cancel_appointment` and
`modify_appointment`: `id = %s AND customer_phone = %s AND status = confirmed`. -/
def ownedConfirmed (normalized_phone : String) (appointment_id : Nat) (a : Appointment) : Bool :=
  a.id == appointment_id && a.customer_phone == normalized_phone && a.status == Status.confirmed

/-- Structured result of `cancel_appointment`. -/
inductive CancelResult where
  | appointmentNotFound (appointment_id : Nat)
  | cancelled (cancelled_appointment_id : Nat) (calendar_updated : Bool)
deriving DecidableEq, Repr

/-- Embeds `cancel_appointment(customer_phone, appointment_id)`.  The unused
`syncOk` parameter is the boolean returned by `delete_calendar_event`, which
the source ignores. -/
def cancel_appointment (syncOk : Bool) (db : DB) (customer_phone : String)
    (appointment_id : Nat) : CancelResult × DB × List Effect :=
  let _ := syncOk
  let normalized_phone := normalize_phone customer_phone
  match db.appts.find? (ownedConfirmed normalized_phone appointment_id) with
  | none => (.appointmentNotFound appointment_id, db, [])
  | some row =>
    (.cancelled appointment_id row.google_event_id.isSome,
     { db with appts := db.appts.map (fun a =>
         if a.id = appointment_id then { a with status := .cancelled } else a) },
     (match row.google_event_id with
      | some ev => [Effect.calendarDelete ev]
      | none => []) ++ [Effect.dbUpdate appointment_id])

/-- Structured result of `modify_appointment`.  A `changes` entry is `some
(from, to)` exactly when the source puts that key into the `changes` dict. -/
inductive ModifyResult where
  | appointmentNotFound (appointment_id : Nat)
  | invalidService (provided : String) (valid_services : List String)
  | pastDateNotAllowed
  | invalidDateTimeFormat (provided_date provided_time : String)
  | businessRuleViolation (error_code message message_it date time : String)
  | slotAlreadyBooked (date time : String)
  | modified (appointment_id : Nat) (customer_name service service_en new_date new_time : String)
      (changes_date changes_time changes_service : Option (String × String))
      (calendar_updated : Bool)
deriving DecidableEq, Repr

def ModifyResult.isSuccess : ModifyResult → Bool
  | .modified _ _ _ _ _ _ _ _ _ _ => true
  | _ => false

/-- The conflict query of `modify_appointment`: confirmed rows on the target
slot other than the row being modified. -/
def otherConfirmedAt (d : Date) (t : Time) (appointment_id : Nat) (a : Appointment) : Bool :=
  a.appointment_date == d && a.appointment_time == t &&
    a.status == Status.confirmed && a.id != appointment_id

/-- Computes `final_service = new_service.lower() if new_service else
current_service`. -/
def modifyFinalService (current_service : String) : Option String → String
  | some s => pyLower s
  | none => current_service

/-- The service resolution of `modify_appointment`: a changed service must
exist in the catalog; an unchanged one falls back to the source's literal
default dict `{"duration": 45, "price": 35, "name_it": final_service}` (whose
missing `name_en` later defaults to `final_service`). -/
def modifyServiceLookup (final_service : String) : Option String → Option Service
  | some _ => getService final_service
  | none => some ((getService final_service).getD ⟨final_service, final_service, 35, 45⟩)

/-- The final (date, time) of `modify_appointment`: requested strings are
parsed by `strptime`, absent fields keep the stored value. -/
def modifyParsedFinal (current_date : Date) (current_time : Time)
    (new_date new_time : Option String) : Option DateTime :=
  match (match new_date with | some s => parseDate s | none => some current_date),
        (match new_time with | some s => parseTime s | none => some current_time) with
  | some d, some t => some ⟨d, t⟩
  | _, _ => none

/-- Embeds `modify_appointment(customer_phone, appointment_id, new_date,
new_time, new_service)`.  `none` arguments cover both absent and falsy (empty)
Python values.  When a field is not changed, the source feeds the stored
value back through its canonical string rendering and `strptime`; on every
value a `DATE`/`TIME` column can hold that round trip is the identity, so the
embedding uses the stored value directly (display strings still use the
rendering).  The unused `syncOk` parameter is the boolean returned by
`update_calendar_event`, which the source ignores. -/
def modify_appointment (now : DateTime) (syncOk : Bool) (db : DB) (customer_phone : String)
    (appointment_id : Nat) (new_date new_time new_service : Option String) :
    ModifyResult × DB × List Effect :=
  let _ := syncOk
  let normalized_phone := normalize_phone customer_phone
  match db.appts.find? (ownedConfirmed normalized_phone appointment_id) with
  | none => (.appointmentNotFound appointment_id, db, [])
  | some appointment =>
    let current_name := appointment.customer_name
    let current_service := appointment.service_type
    let current_date := appointment.appointment_date
    let current_time := appointment.appointment_time
    let google_event_id := appointment.google_event_id
    let final_date_str := match new_date with | some s => s | none => current_date.render
    let final_time_str := match new_time with | some s => s | none => current_time.render
    let final_service := modifyFinalService current_service new_service
    match modifyServiceLookup final_service new_service with
    | none => (.invalidService final_service (SALON_SERVICES.map Prod.fst), db, [])
    | some service =>
      match modifyParsedFinal current_date current_time new_date new_time with
      | none => (.invalidDateTimeFormat final_date_str final_time_str, db, [])
      | some fdt =>
        if fdt.key < now.key then (.pastDateNotAllowed, db, [])
        else
          match validateDate fdt.date with
          | .invalid code msg msgIt =>
            (.businessRuleViolation code msg msgIt final_date_str final_time_str, db, [])
          | .valid =>
            if (new_date.isSome ∨ new_time.isSome) ∧
               0 < db.appts.countP (otherConfirmedAt fdt.date fdt.time appointment_id) then
              (.slotAlreadyBooked final_date_str final_time_str, db, [])
            else
              let changes_date := match new_date with
                | some nd => if nd ≠ current_date.render then some (current_date.render, final_date_str) else none
                | none => none
              let changes_time := match new_time with
                | some nt => if nt ≠ current_time.render then some (current_time.render, final_time_str) else none
                | none => none
              let changes_service := match new_service with
                | some ns => if pyLower ns ≠ pyLower current_service then some (current_service, final_service) else none
                | none => none
              (.modified appointment_id current_name service.name_it service.name_en
                 final_date_str final_time_str changes_date changes_time changes_service
                 google_event_id.isSome,
               { db with appts := db.appts.map (fun a =>
                   if a.id = appointment_id then
                     { a with appointment_date := fdt.date, appointment_time := fdt.time,
                              service_type := final_service,
                              duration_minutes := service.duration, price := service.price }
                   else a) },
               [Effect.dbUpdate appointment_id] ++
               (match google_event_id with
                | some ev => [Effect.calendarUpdate ev]
                | none => []))

/-- The row filter of the `get_customer_appointments` query:
`customer_phone = %s AND status = confirmed AND (appointment_date > today OR
(appointment_date = today AND appointment_time > now))`. -/
def futureFilter (now : DateTime) (normalized_phone : String) (a : Appointment) : Bool :=
  a.customer_phone == normalized_phone && a.status == Status.confirmed &&
    (decide (now.date.key < a.appointment_date.key) ||
     (a.appointment_date == now.date && decide (now.time.key < a.appointment_time.key)))

/-- Chronological order used by `ORDER BY appointment_date, appointment_time`. -/
def apptOrder (a b : Appointment) : Prop :=
  toLex (a.appointment_date.key, a.appointment_time.key) ≤
    toLex (b.appointment_date.key, b.appointment_time.key)

instance : DecidableRel apptOrder := fun a b => by
  unfold apptOrder
  infer_instance

instance : IsTotal Appointment apptOrder :=
  ⟨fun _ _ => le_total _ _⟩

instance : IsTrans Appointment apptOrder :=
  ⟨fun _ _ _ => le_trans⟩

/-- Embeds the query of `get_customer_appointments(customer_phone)`,
returning the selected rows in query order (the Python function then maps
them into display dicts, which adds no information relevant here). -/
def get_customer_appointments (now : DateTime) (db : DB) (customer_phone : String) :
    List Appointment :=
  let normalized_phone := normalize_phone customer_phone
  List.insertionSort apptOrder (db.appts.filter (futureFilter now normalized_phone))

/-! ### The storage schema created by `initialize_database`

The DDL of `salon_appointments` is transcribed column by column, together
with the uniqueness constraints it declares, so that the storage layer's
duplicate-rejection behaviour can be examined. -/

structure ColumnDef where
  name : String
  sqlType : String
  primaryKey : Bool := false
  notNull : Bool := false
deriving DecidableEq, Repr

/-- Columns of `CREATE TABLE IF NOT EXISTS salon_appointments (…)`. -/
def salon_appointments_columns : List ColumnDef :=
  [⟨"id", "SERIAL", true, false⟩,
   ⟨"customer_phone", "VARCHAR(20)", false, true⟩,
   ⟨"customer_name", "VARCHAR(100)", false, true⟩,
   ⟨"service_type", "VARCHAR(50)", false, true⟩,
   ⟨"appointment_date", "DATE", false, true⟩,
   ⟨"appointment_time", "TIME", false, true⟩,
   ⟨"duration_minutes", "INTEGER", false, false⟩,
   ⟨"price", "DECIMAL(10,2)", false, false⟩,
   ⟨"status", "VARCHAR(20)", false, false⟩,
   ⟨"google_event_id", "VARCHAR(255)", false, false⟩,
   ⟨"created_at", "TIMESTAMP", false, false⟩]

/-- Column sets on which the DDL declares uniqueness: only the
`SERIAL PRIMARY KEY` on `id`.  The DDL contains no `UNIQUE` column, no table
`UNIQUE` constraint and no unique index. -/
def salon_appointments_unique_constraints : List (List String) := [["id"]]

/-- Text form of a column of a row, for constraint comparison. -/
def columnValue (a : Appointment) : String → String
  | "id" => ⟨natToChars a.id⟩
  | "customer_phone" => a.customer_phone
  | "customer_name" => a.customer_name
  | "service_type" => a.service_type
  | "appointment_date" => a.appointment_date.render
  | "appointment_time" => a.appointment_time.render
  | "duration_minutes" => ⟨natToChars a.duration_minutes⟩
  | "price" => ⟨natToChars a.price⟩
  | "status" => match a.status with | .confirmed => "confirmed" | .cancelled => "cancelled"
  | "google_event_id" => a.google_event_id.getD ""
  | _ => ""

/-- Whether inserting `row` into `existing` violates one of the declared
uniqueness constraints (the condition under which PostgreSQL raises the
`UniqueViolation` that `create_appointment` translates into
`SLOT_JUST_BOOKED`). -/
def violatesUnique (existing : List Appointment) (row : Appointment) : Bool :=
  salon_appointments_unique_constraints.any (fun cols =>
    existing.any (fun b => cols.all (fun c => columnValue b c == columnValue row c)))

/-- The storage layer's own behaviour on a raw `INSERT`: reject with a
uniqueness violation when a declared constraint is violated, accept
otherwise.  This is the layer the spec relies on to stop the
check-then-insert race. -/
def rawInsert (db : DB) (row : Appointment) : Option DB :=
  if violatesUnique db.appts row then none
  else some { appts := db.appts ++ [row], nextId := db.nextId + 1 }

/-! ### Function dispatch and the tool-call loop controller -/

/-- Structured arguments of one tool call, mirroring the JSON object the
model supplies (`none` encodes an absent key). -/
structure ToolArgs where
  customer_name : Option String := none
  service_type : Option String := none
  date : Option String := none
  time : Option String := none
  appointment_id : Option Nat := none
  new_date : Option String := none
  new_time : Option String := none
  new_service : Option String := none
deriving DecidableEq, Repr

structure ToolCall where
  name : String
  args : ToolArgs
deriving DecidableEq, Repr

/-- Structured result of `get_available_slots`. -/
inductive SlotsResult where
  | invalidDateFormat (provided : String)
  | pastDateNotAllowed
  | closedDay (reason reason_it : String)
  | slots (available_slots : List String)
deriving DecidableEq, Repr

/-- Structured result of one dispatched tool call; `executionError` is the
generic exception dict of `execute_function` (missing JSON key, bad cast). -/
inductive ToolResult where
  | createRes (r : CreateResult)
  | cancelRes (r : CancelResult)
  | modifyRes (r : ModifyResult)
  | availability (available : Bool)
  | appointments (rows : List Appointment)
  | slotsRes (r : SlotsResult)
  | unknownFunction (function_name : String)
  | executionError
deriving DecidableEq, Repr

/-- Embeds `check_availability(date, time)`; a malformed date or time makes
the SQL cast raise, which the source surfaces as its generic error dict. -/
def check_availability (db : DB) (date time : String) : ToolResult :=
  match parseDateTime date time with
  | none => .executionError
  | some dt => .availability (confirmedCountAt db.appts dt.date dt.time == 0)

/-- Embeds `get_available_slots(date)`: 30-minute grid from 9:00 up to the
weekday closing hour, minus booked times, minus (for today) times before
now + 30 minutes. -/
def get_available_slots (now : DateTime) (db : DB) (date : String) : SlotsResult :=
  match parseDate date with
  | none => .invalidDateFormat date
  | some d =>
    if d.key < now.date.key then .pastDateNotAllowed
    else
      let is_today := d == now.date
      match validateDate d with
      | .invalid _ reason reasonIt => .closedDay reason reasonIt
      | .valid =>
        let closing_hour := if d.weekday = 5 then 17 else 18
        let booked := (db.appts.filter (fun a =>
          a.appointment_date == d && a.status == Status.confirmed)).map
          (fun a => a.appointment_time.render)
        let all_slots := (List.range' 9 (closing_hour - 9)).flatMap
          (fun h => [Time.render ⟨h, 0⟩, Time.render ⟨h, 30⟩])
        let available := all_slots.filter (fun s => !(booked.contains s))
        let available :=
          if is_today then
            let total := now.time.hour * 60 + now.time.minute + 30
            let cur := Time.render ⟨total / 60 % 24, total % 60⟩
            available.filter (fun s => cur ≤ s)
          else available
        .slots available

/-- Embeds `execute_function(function_name, arguments, phone)`: the fixed
dispatch table, with the caller identity taken from the transport layer and
never from model-supplied arguments.  A missing required argument is the
`KeyError` path of the source's catch-all handler. -/
def execute_function (now : DateTime) (syncOut : Option String) (db : DB)
    (function_name : String) (args : ToolArgs) (phone : String) : ToolResult × DB :=
  if function_name = "create_appointment" then
    match args.customer_name, args.service_type, args.date, args.time with
    | some cn, some st, some d, some t =>
      let r := create_appointment now syncOut db phone cn st d t
      (.createRes r.1, r.2.1)
    | _, _, _, _ => (.executionError, db)
  else if function_name = "check_availability" then
    match args.date, args.time with
    | some d, some t => (check_availability db d t, db)
    | _, _ => (.executionError, db)
  else if function_name = "get_customer_appointments" then
    (.appointments (get_customer_appointments now db phone), db)
  else if function_name = "cancel_appointment" then
    match args.appointment_id with
    | some i =>
      let r := cancel_appointment true db phone i
      (.cancelRes r.1, r.2.1)
    | none => (.executionError, db)
  else if function_name = "modify_appointment" then
    match args.appointment_id with
    | some i =>
      let r := modify_appointment now true db phone i args.new_date args.new_time args.new_service
      (.modifyRes r.1, r.2.1)
    | none => (.executionError, db)
  else if function_name = "get_available_slots" then
    match args.date with
    | some d => (.slotsRes (get_available_slots now db d), db)
    | none => (.executionError, db)
  else (.unknownFunction function_name, db)

/-- One reply of the chat-completion service: optional text content plus the
list of requested tool calls (empty when the model answers in plain text). -/
structure ModelOutput where
  content : Option String
  tool_calls : List ToolCall
deriving DecidableEq, Repr

/-- Sequential dispatch of the tool calls of one round, threading the store
and a counter indexing the calendar outcomes `syncOuts`. -/
def execToolCalls (now : DateTime) (syncOuts : Nat → Option String) (phone : String)
    (st : DB × Nat) (calls : List ToolCall) : DB × Nat :=
  calls.foldl (fun st tc =>
    ((execute_function now (syncOuts st.2) st.1 tc.name tc.args phone).2, st.2 + 1)) st

/-- Embeds the tool-call loop of `get_ai_response`: the model behaviour is a
stream of replies indexed by call number; the controller makes up to three
tool-dispatching rounds and then one final model call with tool access
disabled, taking its plain content as the reply.  The returned list records
one entry per model call made, `true` when that call offered tools. -/
def get_ai_response (model : Nat → ModelOutput) (now : DateTime)
    (syncOuts : Nat → Option String) (db : DB) (phone message : String) :
    String × DB × List Bool :=
  let _ := message
  let m1 := model 0
  if m1.tool_calls = [] then (m1.content.getD "", db, [true])
  else
    let st1 := execToolCalls now syncOuts phone (db, 0) m1.tool_calls
    let m2 := model 1
    if m2.tool_calls = [] then (m2.content.getD "", st1.1, [true, true])
    else
      let st2 := execToolCalls now syncOuts phone st1 m2.tool_calls
      let m3 := model 2
      if m3.tool_calls = [] then (m3.content.getD "", st2.1, [true, true, true])
      else
        let st3 := execToolCalls now syncOuts phone st2 m3.tool_calls
        let m4 := model 3
        (m4.content.getD "", st3.1, [true, true, true, false])

/-! ### Operation sequences and invariants -/

/-- One repository mutation with its environment, for sequential runs. -/
inductive Op where
  | createOp (now : DateTime) (syncOut : Option String)
      (customer_phone customer_name service_type date time : String)
  | modifyOp (now : DateTime) (syncOk : Bool) (customer_phone : String)
      (appointment_id : Nat) (new_date new_time new_service : Option String)
  | cancelOp (syncOk : Bool) (customer_phone : String) (appointment_id : Nat)

def applyOp (db : DB) : Op → DB
  | .createOp now sync p n s d t => (create_appointment now sync db p n s d t).2.1
  | .modifyOp now ok p i nd nt ns => (modify_appointment now ok db p i nd nt ns).2.1
  | .cancelOp ok p i => (cancel_appointment ok db p i).2.1

/-- Runs a sequence of operations from the empty store. -/
def runOps (ops : List Op) : DB := ops.foldl applyOp DB.empty

/-- The slot invariant: at most one confirmed appointment per (date, time). -/
def slotInv (l : List Appointment) : Prop := ∀ d t, confirmedCountAt l d t ≤ 1

/-- The reachable-state invariant: distinct row ids, ids below the next
serial value, and the slot invariant. -/
def dbInv (db : DB) : Prop :=
  (db.appts.map Appointment.id).Nodup ∧
  (∀ a ∈ db.appts, a.id < db.nextId) ∧
  slotInv db.appts

/-- States that every calendar-sync effect of a trace happens strictly after
some storage write — the ordering the spec asserts for the sync channel. -/
def syncOnlyAfterDbWrite (tr : List Effect) : Prop :=
  ∀ i, (h : i < tr.length) → (tr.get ⟨i, h⟩).isCalendarSync = true →
    ((tr.take i).any Effect.isDbWrite) = true

instance (tr : List Effect) : Decidable (syncOnlyAfterDbWrite tr) := by
  unfold syncOnlyAfterDbWrite
  exact Nat.decidableBallLT _ _

/-- All fields of a row except the external-calendar event reference. -/
def Appointment.core (a : Appointment) :
    Nat × String × String × String × Date × Time × Nat × Nat × Status :=
  (a.id, a.customer_phone, a.customer_name, a.service_type, a.appointment_date,
   a.appointment_time, a.duration_minutes, a.price, a.status)

/-- Minute of the day of a time, for expressing real-time overlaps. -/
def Time.minutesOfDay (t : Time) : Nat := t.hour * 60 + t.minute

/-! ### Concrete fixtures used to instantiate the theorems -/

def sampleNow : DateTime := ⟨⟨2025, 12, 1⟩, ⟨9, 0⟩⟩

def sampleRow : Appointment :=
  ⟨1, "393312671591", "Marco Rossi", "taglio_donna", ⟨2025, 12, 30⟩, ⟨10, 0⟩, 45, 60,
   .confirmed, some "ev1"⟩

def sampleDb : DB := ⟨[sampleRow], 2⟩

/-- A cancelled row owned by a different phone, for the not-found scenarios. -/
def sampleForeignDb : DB :=
  ⟨[{ sampleRow with customer_phone := "390000000001" }], 2⟩

def sampleOps : List Op :=
  [.createOp sampleNow (some "ev1") "+393312671591" "Marco Rossi" "taglio_donna" "2025-12-30" "10:00",
   .createOp sampleNow none "3481112222" "Anna" "piega" "2025-12-30" "10:00",
   .modifyOp sampleNow true "393312671591" 1 (some "2026-01-02") none none,
   .cancelOp true "393312671591" 1]

/-- A model behaviour that keeps requesting a tool on every call. -/
def sampleModel : Nat → ModelOutput :=
  fun _ => ⟨some "ok", [⟨"unknown_fn", {}⟩]⟩

/-- A 150-minute balayage at 10:00 followed by a 45-minute haircut at 10:30
on the same day: the two bookings overlap in real time. -/
def overlapCreate1 : CreateResult × DB × List Effect :=
  create_appointment sampleNow none DB.empty "3331112222" "Anna" "balayage" "2025-12-30" "10:00"

def overlapCreate2 : CreateResult × DB × List Effect :=
  create_appointment sampleNow none overlapCreate1.2.1 "3342221111" "Bea" "taglio_donna"
    "2025-12-30" "10:30"

/-- Relocating the 10:30 haircut to 11:00 — a time inside the 10:00-12:30
balayage — via `modify_appointment`. -/
def overlapModify : ModifyResult × DB × List Effect :=
  modify_appointment sampleNow true overlapCreate2.2.1 "3342221111" 2 none (some "11:00") none

/-- The row a second customer's lost-race insert would write for the slot
already held by `sampleRow`. -/
def c2RaceRow : Appointment :=
  { sampleRow with id := 2, customer_phone := "3480000000", customer_name := "Anna",
                   google_event_id := none }

def c2RacedDb : DB := ⟨sampleDb.appts ++ [c2RaceRow], sampleDb.nextId + 1⟩

/-! ## Theorems -/

theorem dropWhile_idem {α : Type} (p : α → Bool) (l : List α) :
    (l.dropWhile p).dropWhile p = l.dropWhile p := by
  induction l with
  | nil => rfl
  | cons a l ih =>
    by_cases h : p a
    · simp [List.dropWhile_cons, h, ih]
    · simp [List.dropWhile_cons, h]

theorem normalize_phone_data (x : String) (hx : x ≠ "") :
    (normalize_phone x).data =
      if (x.data.filter Char.isDigit).dropWhile (fun c => c == '0') = [] then
        x.data.filter Char.isDigit
      else (x.data.filter Char.isDigit).dropWhile (fun c => c == '0') := by
  unfold normalize_phone
  rw [if_neg hx, apply_ite String.data]

theorem normalize_phone_fixed (y : String)
    (hdig : ∀ c ∈ y.data, c.isDigit)
    (hshape : y.data.dropWhile (fun c => c == '0') = y.data ∨ ∀ c ∈ y.data, c == '0') :
    normalize_phone y = y := by
  by_cases hy : y = ""
  · rw [hy]
    rfl
  · unfold normalize_phone
    rw [if_neg hy]
    have hfilter : y.data.filter Char.isDigit = y.data := List.filter_eq_self.mpr hdig
    rw [hfilter]
    rcases hshape with h | h
    · rw [h]
      split <;> rfl
    · have hnil : y.data.dropWhile (fun c => c == '0') = [] :=
        List.dropWhile_eq_nil_iff.mpr h
      rw [hnil, if_pos rfl]

theorem countP_split {α : Type} (l : List α) (p q : α → Bool) :
    l.countP p = l.countP (fun a => p a && q a) + l.countP (fun a => p a && !q a) := by
  induction l with
  | nil => rfl
  | cons a l ih =>
    rw [List.countP_cons, List.countP_cons, List.countP_cons, ih]
    by_cases hp : p a <;> by_cases hq : q a <;> simp [hp, hq] <;> omega

theorem countP_le_add_of_imp {α : Type} (l : List α) (p q s : α → Bool)
    (h : ∀ a ∈ l, p a = true → q a = true ∨ s a = true) :
    l.countP p ≤ l.countP q + l.countP s := by
  induction l with
  | nil => simp
  | cons a l ih =>
    have ha := h a (List.mem_cons_self a l)
    have ih' := ih (fun b hb => h b (List.mem_cons_of_mem a hb))
    rw [List.countP_cons, List.countP_cons, List.countP_cons]
    by_cases hp : p a
    · rcases ha hp with hq | hs
      · simp [hp, hq]
        omega
      · simp [hp, hs]
        omega
    · simp [hp]
      omega

theorem countP_key_le_one {α β : Type} [DecidableEq β] (l : List α) (f : α → β)
    (hnd : (l.map f).Nodup) (x : β) :
    l.countP (fun a => f a == x) ≤ 1 := by
  induction l with
  | nil => simp
  | cons a l ih =>
    rw [List.map_cons, List.nodup_cons] at hnd
    rw [List.countP_cons]
    by_cases hax : f a = x
    · have h0 : l.countP (fun a => f a == x) = 0 := by
        apply List.countP_eq_zero.mpr
        intro b hb hbx
        apply hnd.1
        rw [hax, ← beq_iff_eq.mp hbx]
        exact List.mem_map_of_mem f hb
      simp [hax, h0]
    · have := ih hnd.2
      simp [hax]
      omega

theorem dbInv_empty : dbInv DB.empty := by
  refine ⟨by simp [DB.empty], by simp [DB.empty], ?_⟩
  intro d t
  simp [DB.empty, confirmedCountAt]

theorem isConfirmedAt_iff (d : Date) (t : Time) (a : Appointment) :
    isConfirmedAt d t a = true ↔
      a.appointment_date = d ∧ a.appointment_time = t ∧ a.status = Status.confirmed := by
  simp [isConfirmedAt, and_assoc]

theorem otherConfirmedAt_iff (d : Date) (t : Time) (i : Nat) (a : Appointment) :
    otherConfirmedAt d t i a = true ↔
      a.appointment_date = d ∧ a.appointment_time = t ∧ a.status = Status.confirmed ∧
        a.id ≠ i := by
  simp [otherConfirmedAt, and_assoc]

/-- Helper: appending a confirmed row onto a free slot preserves the slot
invariant. -/
theorem slotInv_insert (l : List Appointment) (row : Appointment)
    (hconf0 : confirmedCountAt l row.appointment_date row.appointment_time = 0)
    (hslot : slotInv l) : slotInv (l ++ [row]) := by
  intro dd tt
  unfold confirmedCountAt at *
  rw [List.countP_append]
  by_cases hrow : isConfirmedAt dd tt row = true
  · rw [isConfirmedAt_iff] at hrow
    obtain ⟨h1, h2, h3⟩ := hrow
    subst h1
    subst h2
    rw [hconf0]
    simp [List.countP_cons, isConfirmedAt, h3]
  · rw [Bool.not_eq_true] at hrow
    have hz : List.countP (isConfirmedAt dd tt) [row] = 0 := by
      simp [List.countP_cons, hrow]
    rw [hz]
    have h5 := hslot dd tt
    unfold confirmedCountAt at h5
    omega

/-- Helper: inserting a fresh confirmed row (as `create_appointment` does
after its vacancy pre-check) preserves the reachable-state invariant. -/
theorem dbInv_insert (db : DB) (row : Appointment) (hid : row.id = db.nextId)
    (hconf0 : confirmedCountAt db.appts row.appointment_date row.appointment_time = 0)
    (h : dbInv db) : dbInv ⟨db.appts ++ [row], db.nextId + 1⟩ := by
  obtain ⟨hnd, hbound, hslot⟩ := h
  refine ⟨?_, ?_, slotInv_insert db.appts row hconf0 hslot⟩
  · rw [List.map_append, List.nodup_append]
    refine ⟨hnd, List.nodup_singleton _, ?_⟩
    intro b hb hb'
    rcases List.mem_map.mp hb with ⟨a, ha, rfl⟩
    simp only [List.map_cons, List.map_nil, List.mem_singleton] at hb'
    have := hbound a ha
    omega
  · intro a ha
    rcases List.mem_append.mp ha with ha | ha
    · exact Nat.lt_succ_of_lt (hbound a ha)
    · simp only [List.mem_singleton] at ha
      rw [ha, hid]
      exact Nat.lt_succ_self _

theorem create_preserves (now : DateTime) (sync : Option String) (db : DB)
    (cp cn st d t : String) (h : dbInv db) :
    dbInv (create_appointment now sync db cp cn st d t).2.1 := by
  simp only [create_appointment]
  by_cases h1 : pyStrip cn = ""
  · simp only [if_pos h1]
    exact h
  · simp only [if_neg h1]
    cases hs : getService (pyLower st) with
    | none => exact h
    | some service =>
      dsimp only
      cases hp : parseDateTime d t with
      | none => exact h
      | some adt =>
        dsimp only
        by_cases h2 : adt.key < now.key
        · simp only [if_pos h2]
          exact h
        · simp only [if_neg h2]
          cases hv : validate_business_day_and_time d (some t) with
          | invalid c m mi => exact h
          | valid =>
            dsimp only
            by_cases h3 : 0 < confirmedCountAt db.appts adt.date adt.time
            · simp only [if_pos h3]
              exact h
            · simp only [if_neg h3]
              have hcount0 : confirmedCountAt db.appts adt.date adt.time = 0 :=
                Nat.le_zero.mp (Nat.not_lt.mp h3)
              exact dbInv_insert db _ rfl hcount0 ⟨h.1, h.2.1, h.2.2⟩

/-- Helper: the status-only update of `cancel_appointment` preserves the
reachable-state invariant (a cancellation never adds a confirmed row). -/
theorem dbInv_cancel_update (db : DB) (i : Nat) (h : dbInv db) :
    dbInv { db with appts := db.appts.map (fun a =>
      if a.id = i then { a with status := Status.cancelled } else a) } := by
  obtain ⟨hnd, hbound, hslot⟩ := h
  refine ⟨?_, ?_, ?_⟩
  · have hids : (db.appts.map (fun a =>
        if a.id = i then { a with status := Status.cancelled } else a)).map Appointment.id =
        db.appts.map Appointment.id := by
      rw [List.map_map]
      apply List.map_congr_left
      intro a _
      by_cases hai : a.id = i <;> simp [hai]
    simpa [hids] using hnd
  · intro a ha
    rcases List.mem_map.mp ha with ⟨b, hb, rfl⟩
    have := hbound b hb
    by_cases hbi : b.id = i <;> simp [hbi] <;> omega
  · intro dd tt
    unfold confirmedCountAt
    rw [List.countP_map]
    refine le_trans (List.countP_mono_left ?_) (hslot dd tt)
    intro a _ hpa
    by_cases hai : a.id = i
    · simp [Function.comp, hai, isConfirmedAt] at hpa
    · simpa [Function.comp, hai] using hpa

/-- Helper: the target slot of an update has no other confirmed row when the
updated row itself already sits on that slot. -/
theorem other_count_zero_of_self (l : List Appointment) (r : Appointment) (hr : r ∈ l)
    (i : Nat) (hid : r.id = i) (hconf : r.status = Status.confirmed)
    (hslot : slotInv l) :
    l.countP (otherConfirmedAt r.appointment_date r.appointment_time i) = 0 := by
  have hsplit := countP_split l (isConfirmedAt r.appointment_date r.appointment_time)
    (fun a => a.id == i)
  have hpos : 0 < l.countP (fun a =>
      isConfirmedAt r.appointment_date r.appointment_time a && (a.id == i)) := by
    apply List.countP_pos_iff.mpr
    exact ⟨r, hr, by simp [isConfirmedAt, hconf, hid]⟩
  have hle := hslot r.appointment_date r.appointment_time
  unfold confirmedCountAt at hle
  have heq : l.countP (otherConfirmedAt r.appointment_date r.appointment_time i) =
      l.countP (fun a =>
        isConfirmedAt r.appointment_date r.appointment_time a && !(a.id == i)) := by
    apply List.countP_congr
    intro a _
    simp [otherConfirmedAt, isConfirmedAt, and_assoc, bne]
  rw [heq]
  omega

/-- Helper: relocating one row (unique by id) onto a slot with no other
confirmed occupant preserves the slot invariant. -/
theorem slotInv_update (l : List Appointment) (i : Nat) (fd : Date) (ft : Time)
    (svc : String) (dur pr : Nat)
    (hnd : (l.map Appointment.id).Nodup)
    (hslot : slotInv l)
    (hother : l.countP (otherConfirmedAt fd ft i) = 0) :
    slotInv (l.map (fun a =>
      if a.id = i then
        { a with appointment_date := fd, appointment_time := ft,
                 service_type := svc, duration_minutes := dur, price := pr }
      else a)) := by
  intro dd tt
  unfold confirmedCountAt
  rw [List.countP_map]
  by_cases hsl : dd = fd ∧ tt = ft
  · obtain ⟨rfl, rfl⟩ := hsl
    have hkey := countP_key_le_one l Appointment.id hnd i
    have himp : ∀ a ∈ l,
        ((isConfirmedAt dd tt) ∘ (fun a =>
          if a.id = i then
            { a with appointment_date := dd, appointment_time := tt,
                     service_type := svc, duration_minutes := dur, price := pr }
          else a)) a = true →
        (a.id == i) = true ∨ otherConfirmedAt dd tt i a = true := by
      intro a _ hpa
      by_cases hai : a.id = i
      · left
        simp [hai]
      · right
        simp only [Function.comp, if_neg hai] at hpa
        rw [isConfirmedAt_iff] at hpa
        rw [otherConfirmedAt_iff]
        exact ⟨hpa.1, hpa.2.1, hpa.2.2, hai⟩
    have := countP_le_add_of_imp l _ _ _ himp
    rw [hother] at this
    omega
  · refine le_trans (List.countP_mono_left ?_) (hslot dd tt)
    intro a _ hpa
    by_cases hai : a.id = i
    · exfalso
      simp only [Function.comp, if_pos hai] at hpa
      rw [isConfirmedAt_iff] at hpa
      exact hsl ⟨hpa.1.symm, hpa.2.1.symm⟩
    · simpa [Function.comp, hai] using hpa

/-- Helper: the field update of `modify_appointment` preserves the
reachable-state invariant given its conflict-check outcome. -/
theorem dbInv_modify_update (db : DB) (i : Nat) (fd : Date) (ft : Time)
    (svc : String) (dur pr : Nat)
    (hother : db.appts.countP (otherConfirmedAt fd ft i) = 0)
    (h : dbInv db) :
    dbInv { db with appts := db.appts.map (fun a =>
      if a.id = i then
        { a with appointment_date := fd, appointment_time := ft,
                 service_type := svc, duration_minutes := dur, price := pr }
      else a) } := by
  obtain ⟨hnd, hbound, hslot⟩ := h
  refine ⟨?_, ?_, slotInv_update db.appts i fd ft svc dur pr hnd hslot hother⟩
  · have hids : (db.appts.map (fun a =>
        if a.id = i then
          { a with appointment_date := fd, appointment_time := ft,
                   service_type := svc, duration_minutes := dur, price := pr }
        else a)).map Appointment.id = db.appts.map Appointment.id := by
      rw [List.map_map]
      apply List.map_congr_left
      intro a _
      by_cases hai : a.id = i <;> simp [hai]
    simpa [hids] using hnd
  · intro a ha
    rcases List.mem_map.mp ha with ⟨b, hb, rfl⟩
    have := hbound b hb
    by_cases hbi : b.id = i <;> simp [hbi] <;> omega

theorem cancel_preserves (ok : Bool) (db : DB) (p : String) (i : Nat) (h : dbInv db) :
    dbInv (cancel_appointment ok db p i).2.1 := by
  simp only [cancel_appointment]
  cases hf : db.appts.find? (ownedConfirmed (normalize_phone p) i) with
  | none => exact h
  | some row => exact dbInv_cancel_update db i h

theorem modify_preserves (now : DateTime) (ok : Bool) (db : DB) (p : String) (i : Nat)
    (nd nt ns : Option String) (h : dbInv db) :
    dbInv (modify_appointment now ok db p i nd nt ns).2.1 := by
  simp only [modify_appointment]
  cases hf : db.appts.find? (ownedConfirmed (normalize_phone p) i) with
  | none => exact h
  | some r =>
    dsimp only
    cases hsl : modifyServiceLookup (modifyFinalService r.service_type ns) ns with
    | none => exact h
    | some service =>
      dsimp only
      cases hpf : modifyParsedFinal r.appointment_date r.appointment_time nd nt with
      | none => exact h
      | some fdt =>
        dsimp only
        by_cases h2 : fdt.key < now.key
        · simp only [if_pos h2]
          exact h
        · simp only [if_neg h2]
          cases hv : validateDate fdt.date with
          | invalid c m mi => exact h
          | valid =>
            dsimp only
            by_cases h3 : (nd.isSome ∨ nt.isSome) ∧
                0 < db.appts.countP (otherConfirmedAt fdt.date fdt.time i)
            · simp only [if_pos h3]
              exact h
            · simp only [if_neg h3]
              have hrmem := List.mem_of_find?_eq_some hf
              have hrp := List.find?_some hf
              simp only [ownedConfirmed, Bool.and_eq_true, beq_iff_eq] at hrp
              obtain ⟨⟨hrid, hphone⟩, hrconf⟩ := hrp
              have hother : db.appts.countP (otherConfirmedAt fdt.date fdt.time i) = 0 := by
                by_cases hsome : nd.isSome ∨ nt.isSome
                · have hnot : ¬ 0 < db.appts.countP (otherConfirmedAt fdt.date fdt.time i) :=
                    fun hh => h3 ⟨hsome, hh⟩
                  omega
                · have hnd0 : nd = none := by
                    cases nd with
                    | none => rfl
                    | some _ => exact absurd (Or.inl rfl) hsome
                  have hnt0 : nt = none := by
                    cases nt with
                    | none => rfl
                    | some _ => exact absurd (Or.inr rfl) hsome
                  subst hnd0
                  subst hnt0
                  have hred : modifyParsedFinal r.appointment_date r.appointment_time none none =
                      some ⟨r.appointment_date, r.appointment_time⟩ := rfl
                  rw [hred] at hpf
                  have hfd : fdt = ⟨r.appointment_date, r.appointment_time⟩ :=
                    (Option.some.inj hpf).symm
                  rw [hfd]
                  exact other_count_zero_of_self db.appts r hrmem i hrid hrconf h.2.2
              exact dbInv_modify_update db i fdt.date fdt.time
                (modifyFinalService r.service_type ns) service.duration service.price hother h

theorem applyOp_preserves (db : DB) (op : Op) (h : dbInv db) : dbInv (applyOp db op) := by
  cases op with
  | createOp now sync p n s d t => exact create_preserves now sync db p n s d t h
  | modifyOp now ok p i nd nt ns => exact modify_preserves now ok db p i nd nt ns h
  | cancelOp ok p i => exact cancel_preserves ok db p i h

theorem dbInv_foldl (ops : List Op) (db : DB) (h : dbInv db) :
    dbInv (ops.foldl applyOp db) := by
  induction ops generalizing db with
  | nil => exact h
  | cons op ops ih => exact ih _ (applyOp_preserves db op h)

/-- C7: phone normalization is idempotent — for every input string,
normalizing twice equals normalizing once, where normalization keeps only
digit characters and strips leading zeros with an all-zeros fallback. -/
theorem c7_normalize_phone_idempotent (x : String) :
    normalize_phone (normalize_phone x) = normalize_phone x := by
  by_cases hx : x = ""
  · rw [hx]
    rfl
  · have hdata := normalize_phone_data x hx
    apply normalize_phone_fixed
    · intro c hc
      rw [hdata] at hc
      by_cases hs : (x.data.filter Char.isDigit).dropWhile (fun c => c == '0') = []
      · rw [if_pos hs] at hc
        exact List.of_mem_filter hc
      · rw [if_neg hs] at hc
        exact List.of_mem_filter ((List.dropWhile_suffix _).subset hc)
    · rw [hdata]
      by_cases hs : (x.data.filter Char.isDigit).dropWhile (fun c => c == '0') = []
      · rw [if_pos hs]
        right
        exact List.dropWhile_eq_nil_iff.mp hs
      · rw [if_neg hs]
        left
        exact dropWhile_idem _ _

/-- C1: every sequential run of create / modify / cancel operations from the
empty store keeps at most one confirmed appointment per (date, time) slot;
and a create call that passes its earlier checks but targets a slot already
held by a confirmed appointment returns the `SLOT_ALREADY_BOOKED` conflict
error and inserts no row (the store and effect trace are untouched). -/
theorem c1_slot_exclusivity :
    (∀ ops : List Op, slotInv (runOps ops).appts) ∧
    (∀ (now : DateTime) (sync : Option String) (db : DB) (cp cn st d t : String)
       (svc : Service) (adt : DateTime),
      pyStrip cn ≠ "" →
      getService (pyLower st) = some svc →
      parseDateTime d t = some adt →
      ¬ adt.key < now.key →
      validate_business_day_and_time d (some t) = .valid →
      0 < confirmedCountAt db.appts adt.date adt.time →
      create_appointment now sync db cp cn st d t = (.slotAlreadyBooked d t, db, [])) := by
  constructor
  · intro ops
    exact (dbInv_foldl ops DB.empty dbInv_empty).2.2
  · intro now sync db cp cn st d t svc adt h1 h2 h3 h4 h5 h6
    simp only [create_appointment, if_neg h1, h2, h3, if_neg h4, h5, if_pos h6]

theorem c1_witness :
    slotInv (runOps sampleOps).appts ∧
    create_appointment sampleNow none sampleDb "3480000000" "Anna" "piega" "2025-12-30" "10:00" =
      (.slotAlreadyBooked "2025-12-30" "10:00", sampleDb, []) := by
  refine ⟨c1_slot_exclusivity.1 sampleOps, ?_⟩
  exact c1_slot_exclusivity.2 sampleNow none sampleDb "3480000000" "Anna" "piega"
    "2025-12-30" "10:00" ⟨"Piega", "Styling/Blow-dry", 30, 30⟩ ⟨⟨2025, 12, 30⟩, ⟨10, 0⟩⟩
    (by decide) (by decide) (by decide) (by decide) (by decide) (by decide)

/-- C4: cancelling an appointment matched by (id, normalized phone,
confirmed) flips that row's status to cancelled without deleting it (row
count unchanged), returns success, and is idempotent: a second cancel with
the same id and phone returns `APPOINTMENT_NOT_FOUND` and leaves the store
untouched. -/
theorem c4_cancel_transition_idempotent (ok1 ok2 : Bool) (db : DB) (p : String) (i : Nat)
    (r : Appointment)
    (hf : db.appts.find? (ownedConfirmed (normalize_phone p) i) = some r) :
    (cancel_appointment ok1 db p i).1 = .cancelled i r.google_event_id.isSome ∧
    (cancel_appointment ok1 db p i).2.1.appts =
      db.appts.map (fun a => if a.id = i then { a with status := Status.cancelled } else a) ∧
    (cancel_appointment ok1 db p i).2.1.appts.length = db.appts.length ∧
    cancel_appointment ok2 (cancel_appointment ok1 db p i).2.1 p i =
      (.appointmentNotFound i, (cancel_appointment ok1 db p i).2.1, []) := by
  have hnone : (db.appts.map (fun a =>
      if a.id = i then { a with status := Status.cancelled } else a)).find?
      (ownedConfirmed (normalize_phone p) i) = none := by
    apply List.find?_eq_none.mpr
    intro b hb
    rcases List.mem_map.mp hb with ⟨a, _, rfl⟩
    by_cases hai : a.id = i
    · simp [ownedConfirmed, hai]
    · simp [ownedConfirmed, hai]
  simp only [cancel_appointment, hf]
  refine ⟨trivial, trivial, by rw [List.length_map], ?_⟩
  simp only [hnone]

theorem c4_witness :
    (cancel_appointment true sampleDb "393312671591" 1).1 =
      .cancelled 1 sampleRow.google_event_id.isSome ∧
    (cancel_appointment true sampleDb "393312671591" 1).2.1.appts =
      sampleDb.appts.map (fun a =>
        if a.id = 1 then { a with status := Status.cancelled } else a) ∧
    (cancel_appointment true sampleDb "393312671591" 1).2.1.appts.length =
      sampleDb.appts.length ∧
    cancel_appointment false (cancel_appointment true sampleDb "393312671591" 1).2.1
        "393312671591" 1 =
      (.appointmentNotFound 1, (cancel_appointment true sampleDb "393312671591" 1).2.1, []) :=
  c4_cancel_transition_idempotent true false sampleDb "393312671591" 1 sampleRow (by decide)

/-- C5: for both modify and cancel, an id owned by a different normalized
phone or already cancelled produces exactly the result of a non-existent id
(`APPOINTMENT_NOT_FOUND`), with the store untouched and no effects — the two
runs are output-indistinguishable, leaking nothing about other customers. -/
theorem c5_not_found_indistinguishable (now : DateTime) (ok : Bool) (db1 db2 : DB)
    (p : String) (i : Nat) (nd nt ns : Option String)
    (h1 : ∀ a ∈ db1.appts, a.id = i →
      a.customer_phone ≠ normalize_phone p ∨ a.status ≠ Status.confirmed)
    (h2 : ∀ a ∈ db2.appts, a.id ≠ i) :
    modify_appointment now ok db1 p i nd nt ns = (.appointmentNotFound i, db1, []) ∧
    modify_appointment now ok db2 p i nd nt ns = (.appointmentNotFound i, db2, []) ∧
    (modify_appointment now ok db1 p i nd nt ns).1 =
      (modify_appointment now ok db2 p i nd nt ns).1 ∧
    cancel_appointment ok db1 p i = (.appointmentNotFound i, db1, []) ∧
    cancel_appointment ok db2 p i = (.appointmentNotFound i, db2, []) ∧
    (cancel_appointment ok db1 p i).1 = (cancel_appointment ok db2 p i).1 := by
  have hn1 : db1.appts.find? (ownedConfirmed (normalize_phone p) i) = none := by
    apply List.find?_eq_none.mpr
    intro a ha
    intro hx
    simp only [ownedConfirmed, Bool.and_eq_true, beq_iff_eq] at hx
    obtain ⟨⟨hid, hph⟩, hst⟩ := hx
    rcases h1 a ha hid with hc | hc
    · exact hc hph
    · exact hc hst
  have hn2 : db2.appts.find? (ownedConfirmed (normalize_phone p) i) = none := by
    apply List.find?_eq_none.mpr
    intro a ha
    intro hx
    simp only [ownedConfirmed, Bool.and_eq_true, beq_iff_eq] at hx
    exact h2 a ha hx.1.1
  have hm1 : modify_appointment now ok db1 p i nd nt ns = (.appointmentNotFound i, db1, []) := by
    simp only [modify_appointment, hn1]
  have hm2 : modify_appointment now ok db2 p i nd nt ns = (.appointmentNotFound i, db2, []) := by
    simp only [modify_appointment, hn2]
  have hc1 : cancel_appointment ok db1 p i = (.appointmentNotFound i, db1, []) := by
    simp only [cancel_appointment, hn1]
  have hc2 : cancel_appointment ok db2 p i = (.appointmentNotFound i, db2, []) := by
    simp only [cancel_appointment, hn2]
  exact ⟨hm1, hm2, by rw [hm1, hm2], hc1, hc2, by rw [hc1, hc2]⟩

theorem c5_witness :
    modify_appointment sampleNow true sampleForeignDb "393312671591" 1 none none none =
      (.appointmentNotFound 1, sampleForeignDb, []) ∧
    cancel_appointment true DB.empty "393312671591" 1 =
      (.appointmentNotFound 1, DB.empty, []) := by
  have h := c5_not_found_indistinguishable sampleNow true sampleForeignDb DB.empty
    "393312671591" 1 none none none (by decide) (by decide)
  exact ⟨h.1, h.2.2.2.2.1⟩

/-- C6: the active-appointment query returns exactly the rows whose phone
equals the normalized input, whose status is confirmed, and whose date is
after today or equal to today with a later time; the result is ordered by
date then time, and in particular never contains a past appointment or one
owned by another phone. -/
theorem c6_list_active (now : DateTime) (db : DB) (p : String) :
    (∀ a, a ∈ get_customer_appointments now db p ↔
      a ∈ db.appts ∧ futureFilter now (normalize_phone p) a = true) ∧
    List.Sorted apptOrder (get_customer_appointments now db p) ∧
    (∀ a ∈ get_customer_appointments now db p,
      a.customer_phone = normalize_phone p ∧ a.status = Status.confirmed ∧
      (Date.key now.date < Date.key a.appointment_date ∨
        (a.appointment_date = now.date ∧
          Time.key now.time < Time.key a.appointment_time))) := by
  have hperm := List.perm_insertionSort apptOrder
    (db.appts.filter (futureFilter now (normalize_phone p)))
  have hmem : ∀ a, a ∈ get_customer_appointments now db p ↔
      a ∈ db.appts ∧ futureFilter now (normalize_phone p) a = true := by
    intro a
    simp only [get_customer_appointments]
    rw [hperm.mem_iff, List.mem_filter]
  refine ⟨hmem, ?_, ?_⟩
  · simp only [get_customer_appointments]
    exact List.sorted_insertionSort apptOrder _
  · intro a ha
    have hb := ((hmem a).mp ha).2
    simp only [futureFilter, Bool.and_eq_true, Bool.or_eq_true, beq_iff_eq,
      decide_eq_true_eq] at hb
    obtain ⟨⟨hph, hst⟩, hor⟩ := hb
    refine ⟨hph, hst, ?_⟩
    rcases hor with hlt | ⟨heq, hgt⟩
    · exact Or.inl hlt
    · exact Or.inr ⟨heq, hgt⟩

theorem c6_witness :
    (sampleRow ∈ get_customer_appointments sampleNow sampleDb "+39 331 2671591" ↔
      sampleRow ∈ sampleDb.appts ∧
        futureFilter sampleNow (normalize_phone "+39 331 2671591") sampleRow = true) ∧
    List.Sorted apptOrder (get_customer_appointments sampleNow sampleDb "+39 331 2671591") :=
  ⟨(c6_list_active sampleNow sampleDb "+39 331 2671591").1 sampleRow,
   (c6_list_active sampleNow sampleDb "+39 331 2671591").2.1⟩

/-- C8: the tool-call loop controller terminates for every model behaviour:
it makes at most four model calls, the first at most three offering tools,
and when the model keeps requesting tools at the cap the fourth call is made
with tool access disabled, whose plain content becomes the reply. -/
theorem c8_loop_bounded (model : Nat → ModelOutput) (now : DateTime)
    (syncOuts : Nat → Option String) (db : DB) (phone message : String) :
    ((get_ai_response model now syncOuts db phone message).2.2 = [true] ∨
     (get_ai_response model now syncOuts db phone message).2.2 = [true, true] ∨
     (get_ai_response model now syncOuts db phone message).2.2 = [true, true, true] ∨
     (get_ai_response model now syncOuts db phone message).2.2 = [true, true, true, false]) ∧
    (get_ai_response model now syncOuts db phone message).2.2.length ≤ 4 ∧
    ((∀ n, (model n).tool_calls ≠ []) →
      (get_ai_response model now syncOuts db phone message).2.2 = [true, true, true, false] ∧
      (get_ai_response model now syncOuts db phone message).1 =
        ((model 3).content.getD "")) := by
  simp only [get_ai_response]
  by_cases h1 : (model 0).tool_calls = []
  · rw [if_pos h1]
    exact ⟨Or.inl rfl, by simp, fun hall => absurd h1 (hall 0)⟩
  · rw [if_neg h1]
    by_cases h2 : (model 1).tool_calls = []
    · rw [if_pos h2]
      exact ⟨Or.inr (Or.inl rfl), by simp, fun hall => absurd h2 (hall 1)⟩
    · rw [if_neg h2]
      by_cases h3 : (model 2).tool_calls = []
      · rw [if_pos h3]
        exact ⟨Or.inr (Or.inr (Or.inl rfl)), by simp, fun hall => absurd h3 (hall 2)⟩
      · rw [if_neg h3]
        exact ⟨Or.inr (Or.inr (Or.inr rfl)), by simp, fun _ => ⟨rfl, rfl⟩⟩

theorem c8_witness :
    (get_ai_response sampleModel sampleNow (fun _ => none) DB.empty "393312671591"
      "hi").2.2 = [true, true, true, false] ∧
    (get_ai_response sampleModel sampleNow (fun _ => none) DB.empty "393312671591"
      "hi").1 = "ok" := by
  have h := (c8_loop_bounded sampleModel sampleNow (fun _ => none) DB.empty "393312671591"
    "hi").2.2 (fun n => by simp [sampleModel])
  exact ⟨h.1, h.2⟩

/-- C9 counterexample: at a concrete successful create, the calendar-sync
effect precedes the storage insert in the operation's effect trace, so the
claim that the sync channel is invoked only after the repository mutation
fails on `create_appointment`. -/
theorem c9_counterexample :
    (create_appointment sampleNow (some "ev1") DB.empty "+393312671591" "Marco Rossi"
        "taglio_donna" "2025-12-30" "10:00").2.2 =
      [.calendarCreate (some "ev1"), .dbInsert 1] ∧
    ¬ syncOnlyAfterDbWrite (create_appointment sampleNow (some "ev1") DB.empty
        "+393312671591" "Marco Rossi" "taglio_donna" "2025-12-30" "10:00").2.2 := by
  constructor
  · rfl
  · decide

/-- C9 (amended): the calendar sync is a best-effort side channel whose
failure never fails the repository operation — create returns the same
success outcome and stores the same row apart from the external event
reference regardless of the sync outcome, and cancel and modify ignore the
sync outcome entirely; but the sync call precedes the storage write in
create (and cancel), and follows it only in modify. -/
theorem c9_sync_independence_and_order :
    (∀ (now : DateTime) (o1 o2 : Option String) (db : DB) (cp cn st d t : String),
      (create_appointment now o1 db cp cn st d t).1.isSuccess =
        (create_appointment now o2 db cp cn st d t).1.isSuccess ∧
      (create_appointment now o1 db cp cn st d t).2.1.appts.map Appointment.core =
        (create_appointment now o2 db cp cn st d t).2.1.appts.map Appointment.core ∧
      (create_appointment now o1 db cp cn st d t).2.1.nextId =
        (create_appointment now o2 db cp cn st d t).2.1.nextId ∧
      ((create_appointment now o1 db cp cn st d t).2.2 = [] ∨
       (create_appointment now o1 db cp cn st d t).2.2 =
         [.calendarCreate o1, .dbInsert db.nextId])) ∧
    (∀ (ok1 ok2 : Bool) (db : DB) (p : String) (i : Nat),
      cancel_appointment ok1 db p i = cancel_appointment ok2 db p i ∧
      ((cancel_appointment ok1 db p i).2.2 = [] ∨
       (cancel_appointment ok1 db p i).2.2 = [.dbUpdate i] ∨
       ∃ ev, (cancel_appointment ok1 db p i).2.2 = [.calendarDelete ev, .dbUpdate i])) ∧
    (∀ (now : DateTime) (ok1 ok2 : Bool) (db : DB) (p : String) (i : Nat)
       (nd nt ns : Option String),
      modify_appointment now ok1 db p i nd nt ns = modify_appointment now ok2 db p i nd nt ns ∧
      ((modify_appointment now ok1 db p i nd nt ns).2.2 = [] ∨
       ∃ ev, (modify_appointment now ok1 db p i nd nt ns).2.2 = [.dbUpdate i] ++ ev)) := by
  refine ⟨?_, ?_, ?_⟩
  · intro now o1 o2 db cp cn st d t
    simp only [create_appointment]
    by_cases h1 : pyStrip cn = ""
    · rw [if_pos h1, if_pos h1]
      exact ⟨rfl, rfl, rfl, Or.inl rfl⟩
    · rw [if_neg h1, if_neg h1]
      cases hs : getService (pyLower st) with
      | none => exact ⟨rfl, rfl, rfl, Or.inl rfl⟩
      | some service =>
        dsimp only
        cases hp : parseDateTime d t with
        | none => exact ⟨rfl, rfl, rfl, Or.inl rfl⟩
        | some adt =>
          dsimp only
          by_cases h2 : adt.key < now.key
          · rw [if_pos h2, if_pos h2]
            exact ⟨rfl, rfl, rfl, Or.inl rfl⟩
          · rw [if_neg h2, if_neg h2]
            cases hv : validate_business_day_and_time d (some t) with
            | invalid c m mi => exact ⟨rfl, rfl, rfl, Or.inl rfl⟩
            | valid =>
              dsimp only
              by_cases h3 : 0 < confirmedCountAt db.appts adt.date adt.time
              · rw [if_pos h3, if_pos h3]
                exact ⟨rfl, rfl, rfl, Or.inl rfl⟩
              · rw [if_neg h3, if_neg h3]
                refine ⟨rfl, ?_, rfl, Or.inr rfl⟩
                simp [Appointment.core]
  · intro ok1 ok2 db p i
    refine ⟨rfl, ?_⟩
    simp only [cancel_appointment]
    cases hf : db.appts.find? (ownedConfirmed (normalize_phone p) i) with
    | none => exact Or.inl rfl
    | some row =>
      dsimp only
      cases hge : row.google_event_id with
      | none => exact Or.inr (Or.inl rfl)
      | some ev => exact Or.inr (Or.inr ⟨ev, rfl⟩)
  · intro now ok1 ok2 db p i nd nt ns
    refine ⟨rfl, ?_⟩
    simp only [modify_appointment]
    cases hf : db.appts.find? (ownedConfirmed (normalize_phone p) i) with
    | none => exact Or.inl rfl
    | some r =>
      dsimp only
      cases hsl : modifyServiceLookup (modifyFinalService r.service_type ns) ns with
      | none => exact Or.inl rfl
      | some service =>
        dsimp only
        cases hpf : modifyParsedFinal r.appointment_date r.appointment_time nd nt with
        | none => exact Or.inl rfl
        | some fdt =>
          dsimp only
          by_cases h2 : fdt.key < now.key
          · rw [if_pos h2]
            exact Or.inl rfl
          · rw [if_neg h2]
            cases hv : validateDate fdt.date with
            | invalid c m mi => exact Or.inl rfl
            | valid =>
              dsimp only
              by_cases h3 : (nd.isSome ∨ nt.isSome) ∧
                  0 < db.appts.countP (otherConfirmedAt fdt.date fdt.time i)
              · rw [if_pos h3]
                exact Or.inl rfl
              · rw [if_neg h3]
                exact Or.inr ⟨(match r.google_event_id with
                  | some ev => [Effect.calendarUpdate ev]
                  | none => []), rfl⟩

theorem c9_witness :
    (create_appointment sampleNow (some "ev1") DB.empty "+393312671591" "Marco Rossi"
        "taglio_donna" "2025-12-30" "10:00").1.isSuccess =
      (create_appointment sampleNow none DB.empty "+393312671591" "Marco Rossi"
        "taglio_donna" "2025-12-30" "10:00").1.isSuccess ∧
    cancel_appointment true sampleDb "393312671591" 1 =
      cancel_appointment false sampleDb "393312671591" 1 :=
  ⟨(c9_sync_independence_and_order.1 sampleNow (some "ev1") none DB.empty "+393312671591"
      "Marco Rossi" "taglio_donna" "2025-12-30" "10:00").1,
   (c9_sync_independence_and_order.2.1 true false sampleDb "393312671591" 1).1⟩

/-- C10: slot-conflict detection in both `create_appointment` and
`modify_appointment` compares only exact (date, time) equality and never
consults durations — the conflict count of the create pre-check
(`confirmedCountAt`) and of the modify conflict query (`otherConfirmedAt`)
are each invariant under any change of the stored durations; concretely, a
150-minute balayage at 10:00 and a haircut at 10:30 of the same day are both
accepted as confirmed, and a modify relocating the haircut to 11:00 — inside
the balayage — also succeeds, leaving overlapping confirmed rows. -/
theorem c10_duration_ignored :
    (∀ (l : List Appointment) (d : Date) (t : Time) (f : Appointment → Nat),
      confirmedCountAt (l.map (fun a => { a with duration_minutes := f a })) d t =
        confirmedCountAt l d t) ∧
    (∀ (l : List Appointment) (d : Date) (t : Time) (i : Nat) (f : Appointment → Nat),
      (l.map (fun a => { a with duration_minutes := f a })).countP (otherConfirmedAt d t i) =
        l.countP (otherConfirmedAt d t i)) ∧
    overlapCreate1.1.isSuccess = true ∧
    overlapCreate2.1.isSuccess = true ∧
    confirmedCountAt overlapCreate2.2.1.appts ⟨2025, 12, 30⟩ ⟨10, 0⟩ = 1 ∧
    confirmedCountAt overlapCreate2.2.1.appts ⟨2025, 12, 30⟩ ⟨10, 30⟩ = 1 ∧
    (∃ a ∈ overlapCreate2.2.1.appts, ∃ b ∈ overlapCreate2.2.1.appts,
      a.appointment_date = b.appointment_date ∧
      a.status = Status.confirmed ∧ b.status = Status.confirmed ∧
      Time.minutesOfDay a.appointment_time < Time.minutesOfDay b.appointment_time ∧
      Time.minutesOfDay b.appointment_time <
        Time.minutesOfDay a.appointment_time + a.duration_minutes) ∧
    overlapModify.1.isSuccess = true ∧
    (∃ a ∈ overlapModify.2.1.appts, ∃ b ∈ overlapModify.2.1.appts,
      a.appointment_date = b.appointment_date ∧
      a.status = Status.confirmed ∧ b.status = Status.confirmed ∧
      Time.minutesOfDay a.appointment_time < Time.minutesOfDay b.appointment_time ∧
      Time.minutesOfDay b.appointment_time <
        Time.minutesOfDay a.appointment_time + a.duration_minutes) := by
  refine ⟨?_, ?_, ?_⟩
  · intro l d t f
    unfold confirmedCountAt
    rw [List.countP_map]
    apply List.countP_congr
    intro a _
    simp [Function.comp, isConfirmedAt]
  · intro l d t i f
    rw [List.countP_map]
    apply List.countP_congr
    intro a _
    simp [Function.comp, otherConfirmedAt]
  · decide

/-- C2 (storage-layer obligation): the `salon_appointments` DDL declares no
uniqueness constraint touching the slot columns — its only unique column set
is the primary key on id — so the raw insert of a second confirmed row on an
occupied slot is accepted by the storage layer and leaves two confirmed rows
on the same (date, time); the `UniqueViolation` that `create_appointment`
translates into `SLOT_JUST_BOOKED` can therefore never be raised by the
schema that `initialize_database` creates. -/
theorem c2_no_unique_constraint :
    (∀ cols ∈ salon_appointments_unique_constraints,
      "appointment_date" ∉ cols ∧ "appointment_time" ∉ cols ∧ "status" ∉ cols) ∧
    (∀ c ∈ salon_appointments_columns, c.primaryKey = true → c.name = "id") ∧
    rawInsert sampleDb c2RaceRow = some c2RacedDb ∧
    confirmedCountAt c2RacedDb.appts ⟨2025, 12, 30⟩ ⟨10, 0⟩ = 2 := by
  decide

end SalonBot
